import Mathlib

/-!
Verification of the multiline log aggregator (`multiline/multiline.go`).

The Go code is shallowly embedded: pure Lean functions mirror the source
functions, stateful code is expressed as explicit state passing, `time.Time`
and `time.Duration` are modelled as integers (nanoseconds), and the compiled
regular-expression engine is abstracted as a function from a line to the
list of submatch index groups it reports (the shape `regexp.Regexp.
FindAllSubmatchIndex` returns: per match, the list of capture-group index
pairs, `-1` marking a group that did not participate).
-/

namespace Multiline

/-- `model.LabelSet` modelled as an association list; lookup takes the first
binding for a key. -/
abbrev LabelSet := List (String × String)

/-- Lookup in a label set. -/
def LabelSet.get (ls : LabelSet) (k : String) : Option String :=
  (ls.find? (fun p => p.1 == k)).map Prod.snd

/-- `model.LabelSet.Merge`: the receiver's entries with the argument's
entries overriding on key collision.  With first-binding lookup semantics,
putting the argument's bindings in front realises the override. -/
def LabelSet.Merge (ls other : LabelSet) : LabelSet :=
  other ++ ls

/-- `model.LabelSet.Clone`: a copy, which for a pure value is the identity. -/
def LabelSet.Clone (ls : LabelSet) : LabelSet := ls

/-- `time.Time` as integer nanoseconds since an epoch. -/
abbrev Instant := Int

/-- `time.Duration` as integer nanoseconds. -/
abbrev Duration := Int

/-- `time.Second`. -/
def second : Duration := 1000000000

/-- The struct `multilineEntry`: the mutable accumulator for one logical
multi-line record. -/
structure MultilineEntry where
  /-- time the first log line was set -/
  enrollTime : Instant := 0
  /-- entry labels -/
  labels : LabelSet := []
  /-- timestamp of the first log line of the record -/
  timestamp : Instant := 0
  /-- the record's group key -/
  key : String := ""
  /-- text of the log lines concatenated -/
  entry : String := ""
  /-- number of log lines contained in this entry -/
  lines : Nat := 0
  deriving DecidableEq, Repr, Inhabited

/-- `multilineEntry.reset`: clears labels, text and line count (and nothing
else — in particular the key, the enroll time and the timestamp remain). -/
def MultilineEntry.reset (d : MultilineEntry) : MultilineEntry :=
  { d with labels := [], entry := "", lines := 0 }

/-- `join(a, sep, b)`: appends `b` to `a`, inserting `sep` only when `a` is
nonempty. -/
def join (a sep b : String) : String :=
  if a.length > 0 then a ++ sep ++ b else a ++ b

/-- `multilineEntry.init`: set the record to exactly the one given line,
with `now` standing for the `time.Now()` call that stamps the enroll time. -/
def MultilineEntry.init (d : MultilineEntry) (labels : LabelSet) (t : Instant)
    (now : Instant) (entry : String) : MultilineEntry :=
  { d with labels := labels.Clone, timestamp := t, entry := entry,
           lines := 1, enrollTime := now }

/-- `multilineEntry.append`: faithful to the source line
`d.labels = labels.Merge(labels)` — the incoming label set merged with
itself, not with the record's accumulated labels. -/
def MultilineEntry.append (d : MultilineEntry) (labels : LabelSet)
    (entry : String) (delimiter : String) : MultilineEntry :=
  { d with labels := labels.Merge labels,
           entry := join d.entry delimiter entry,
           lines := d.lines + 1 }

/-- `newMultiLineEntry`: a fresh entry for the given key (Go zero values for
the remaining fields). -/
def newMultiLineEntry (key : String) : MultilineEntry :=
  { labels := [], key := key }

/-! ## The pattern extractor: `disjoint` and `selection` -/

/-- The slice `s[a:b]` of a character list. -/
def substr (s : List Char) (a b : Nat) : List Char :=
  (s.take b).drop a

/-- The loop state of `disjoint`: the chunks accumulated into `sel` and
`inv` and the cursor `last`. -/
structure DisjointState where
  sel : List (List Char)
  inv : List (List Char)
  last : Nat
  deriving Repr

/-- One iteration of the inner loop of `disjoint` for a single capture-group
index pair `g = (beg, end)`: skip a non-participating group (`beg < 0`);
otherwise, when `end > beg && beg >= last`, push `s[last:beg]` onto `inv`
and `s[beg:end]` onto `sel` and advance the cursor to `end`. -/
def disjointGroupStep (s : List Char) (st : DisjointState) (g : Int × Int) :
    DisjointState :=
  if g.1 < 0 then st
  else if g.2 > g.1 ∧ g.1 ≥ (st.last : Int) then
    { sel := st.sel ++ [substr s g.1.toNat g.2.toNat],
      inv := st.inv ++ [substr s st.last g.1.toNat],
      last := g.2.toNat }
  else st

/-- The two nested loops of `disjoint` over all matches and each match's
capture groups. -/
def disjointScan (ms : List (List (Int × Int))) (s : List Char) :
    DisjointState :=
  ms.foldl (fun st m => m.foldl (disjointGroupStep s) st) ⟨[], [], 0⟩

/-- The `sel` chunk list built by `disjoint`. -/
def disjointSelChunks (ms : List (List (Int × Int))) (s : List Char) :
    List (List Char) :=
  (disjointScan ms s).sel

/-- The `inv` chunk list built by `disjoint`, with the trailing
`s[last:]` chunk appended when the cursor stopped before the end. -/
def disjointInvChunks (ms : List (List (Int × Int))) (s : List Char) :
    List (List Char) :=
  let st := disjointScan ms s
  if st.last < s.length then st.inv ++ [s.drop st.last] else st.inv

/-- `disjoint(expression, s)`: the concatenated captured spans and the
concatenated remaining text, given the match index data the compiled
expression reports for `s`. -/
def disjoint (ms : List (List (Int × Int))) (s : List Char) :
    List Char × List Char :=
  ((disjointSelChunks ms s).flatten, (disjointInvChunks ms s).flatten)

/-- The positional recombination of the two chunk lists: unselected text
alternating with selected text, starting with the unselected chunk that
precedes the first capture. -/
def interleaveChunks : List (List Char) → List (List Char) → List (List Char)
  | [], ss => ss
  | i :: is, [] => i :: is
  | i :: is, s :: ss => i :: s :: interleaveChunks is ss

/-- Abstraction of a compiled `regexp.Regexp`: what
`FindAllSubmatchIndex(line, -1)` reports, per match the list of
capture-group index pairs. -/
structure Regex where
  findAllSubmatchIndex : String → List (List (Int × Int))

/-- `regexp.Regexp.Match`: the expression matches somewhere in `s` exactly
when the all-matches scan is nonempty. -/
def Regex.isMatch (re : Regex) (s : String) : Bool :=
  !(re.findAllSubmatchIndex s).isEmpty

/-- String-level `disjoint` for a compiled expression. -/
def disjointRe (re : Regex) (s : String) : String × String :=
  let p := disjoint (re.findAllSubmatchIndex s) s.toList
  (p.1.asString, p.2.asString)

/-- `selection(expression, s)`: the selected part when an expression is
configured, `s` unaltered otherwise. -/
def selection (expression : Option Regex) (s : String) : String :=
  match expression with
  | none => s
  | some re => (disjointRe re s).1

/-! ## Flush and delivery -/

/-- The downstream `api.EntryHandler`: `none` is a nil error, `some e` an
error message. -/
abbrev Handler := LabelSet → Instant → String → Option String

/-- One downstream delivery: the arguments of a `c.next.Handle` call. -/
structure Delivery where
  labels : LabelSet
  timestamp : Instant
  entry : String
  deriving DecidableEq, Repr

/-- The `c.next.Handle(t.labels, t.timestamp, t.entry)` argument tuple for a
record `t`. -/
def toDelivery (t : MultilineEntry) : Delivery :=
  ⟨t.labels, t.timestamp, t.entry⟩

/-- Loop accumulator of the multitrack branch of `flush`: the surviving
entries (`nextGen`), the downstream calls made so far, and the non-nil
errors collected by the `util.MultiError`. -/
structure FlushAcc where
  nextGen : List MultilineEntry
  delivered : List Delivery
  errs : List String
  deriving Repr

/-- One iteration of the multitrack `flush` loop over a tracked entry `t`:
entries with no lines are dropped; an entry is delivered when forced or
older than `maxWait`, otherwise it is kept for the next generation.
`util.MultiError.Add` retains only non-nil errors (`Option.toList`). -/
def flushStep (next : Handler) (now : Instant) (maxWait : Duration)
    (force : Bool) (acc : FlushAcc) (t : MultilineEntry) : FlushAcc :=
  if t.lines = 0 then acc
  else if force = true ∨ now - t.enrollTime > maxWait then
    { acc with delivered := acc.delivered ++ [toDelivery t],
               errs := acc.errs ++ (next t.labels t.timestamp t.entry).toList }
  else { acc with nextGen := acc.nextGen ++ [t] }

/-- The multitrack branch of `flush`: rebuild `c.multilines` as `nextGen`,
delivering forced or timed-out entries along the way. -/
def flushMulti (next : Handler) (now : Instant) (maxWait : Duration)
    (force : Bool) (multilines : List MultilineEntry) : FlushAcc :=
  multilines.foldl (flushStep next now maxWait force) ⟨[], [], []⟩

/-- The single-track branch of `flush`: deliver and reset the one slot when
it has lines and is forced or timed out. -/
def flushSingle (next : Handler) (now : Instant) (maxWait : Duration)
    (force : Bool) (t : MultilineEntry) :
    MultilineEntry × List Delivery × List String :=
  if t.lines > 0 ∧ (force = true ∨ now - t.enrollTime > maxWait) then
    (t.reset, [toDelivery t], (next t.labels t.timestamp t.entry).toList)
  else (t, [], [])

/-- `util.MultiError.Err()`: nil when no error was added, otherwise the
combined error value. -/
def multiErrorResult (errs : List String) : Option (List String) :=
  if errs.isEmpty then none else some errs

/-- The mutable aggregator state of `multiLineParser` that `flush`, `Stop`
and the mode handlers read and write: the registry and the ticker.
`flusher = some b` models an existing `time.Ticker` whose goroutine is
running iff `b`; `none` models no ticker (flusher disabled). -/
structure ParserState where
  multitrack : Bool
  multilines : List MultilineEntry
  multiline : MultilineEntry
  flusher : Option Bool
  deriving Repr

/-- `multiLineParser.flush(force)`: dispatch on `multitrack`, returning the
new state, the downstream calls made, and `err.Err()`. -/
def flush (next : Handler) (now : Instant) (maxWait : Duration) (force : Bool)
    (p : ParserState) : ParserState × List Delivery × Option (List String) :=
  if p.multitrack then
    let acc := flushMulti next now maxWait force p.multilines
    ({ p with multilines := acc.nextGen }, acc.delivered,
      multiErrorResult acc.errs)
  else
    let r := flushSingle next now maxWait force p.multiline
    ({ p with multiline := r.1 }, r.2.1, multiErrorResult r.2.2)

/-- `multiLineParser.Flush()`: a forced flush, returning its error. -/
def Flush (next : Handler) (now : Instant) (maxWait : Duration)
    (p : ParserState) : ParserState × List Delivery × Option (List String) :=
  flush next now maxWait true p

/-- `multiLineParser.Stop()`: stop the ticker when one exists, run a forced
flush whose returned error is dropped, and return nil. -/
def Stop (next : Handler) (now : Instant) (maxWait : Duration)
    (p : ParserState) : ParserState × List Delivery × Option (List String) :=
  let p1 : ParserState :=
    match p.flusher with
    | some _ => { p with flusher := some false }
    | none => p
  let r := flush next now maxWait true p1
  (r.1, r.2.1, none)

/-! ## Mode handlers -/

/-- The configuration fields of `multiLineParser` that the mode handlers
read. -/
structure ModeConfig where
  expressionRegex : Regex
  firstLineRegex : Option Regex
  nextLineRegex : Option Regex
  separator : String

/-- `handleNewLineMode`: lines are appended until the primary expression
matches; a matching line delivers the pending record (when it has lines)
and re-inits the slot. -/
def handleNewLineMode (c : ModeConfig) (next : Handler) (now : Instant)
    (ml : MultilineEntry) (labels : LabelSet) (t : Instant) (entry : String) :
    MultilineEntry × List Delivery × Option String :=
  if ¬ c.expressionRegex.isMatch entry then
    (ml.append labels (selection c.nextLineRegex entry) c.separator, [], none)
  else
    let ds : List Delivery × Option String :=
      if ml.lines > 0 then ([toDelivery ml], next ml.labels ml.timestamp ml.entry)
      else ([], none)
    (ml.init labels t now (selection c.firstLineRegex entry), ds.1, ds.2)

/-- `handleGroupMode`: a line whose extracted group key equals the slot's
key is appended (the default text being the line with the key stripped); a
key change delivers the pending record (when it has lines) and re-inits the
slot with the new key. -/
def handleGroupMode (c : ModeConfig) (next : Handler) (now : Instant)
    (ml : MultilineEntry) (labels : LabelSet) (t : Instant) (entry : String) :
    MultilineEntry × List Delivery × Option String :=
  let p := disjointRe c.expressionRegex entry
  if ml.key = p.1 then
    let line : String :=
      match c.nextLineRegex with
      | some _ => selection c.nextLineRegex entry
      | none => p.2
    (ml.append labels line c.separator, [], none)
  else
    let ds : List Delivery × Option String :=
      if ml.lines > 0 then ([toDelivery ml], next ml.labels ml.timestamp ml.entry)
      else ([], none)
    ({ ml.init labels t now (selection c.firstLineRegex entry) with key := p.1 },
      ds.1, ds.2)

/-- The body applied to the entry `fetchLine` returns in
`handleUnorderedGroupMode`: append when the entry has lines, init it (and
set its key) otherwise. -/
def unorderedGroupUpdate (c : ModeConfig) (now : Instant) (labels : LabelSet)
    (t : Instant) (entry : String) (key inv : String) (ml : MultilineEntry) :
    MultilineEntry :=
  if ml.lines > 0 then
    let line : String :=
      match c.nextLineRegex with
      | some _ => selection c.nextLineRegex entry
      | none => inv
    ml.append labels line c.separator
  else
    { ml.init labels t now (selection c.firstLineRegex entry) with key := key }

/-- `fetchLine` followed by the in-place mutation of the fetched entry:
update the first entry with the given key, or append a freshly created one
(whose key `fetchLine` sets) and update it. -/
def fetchLineAndUpdate (key : String) (f : MultilineEntry → MultilineEntry) :
    List MultilineEntry → List MultilineEntry
  | [] => [f (newMultiLineEntry key)]
  | t :: ts =>
    if t.key = key then f t :: ts else t :: fetchLineAndUpdate key f ts

/-- `handleUnorderedGroupMode`: fetch-or-create the record of the line's
group key and append to it or init it; no downstream call is made here. -/
def handleUnorderedGroupMode (c : ModeConfig) (next : Handler) (now : Instant)
    (multilines : List MultilineEntry) (labels : LabelSet) (t : Instant)
    (entry : String) :
    List MultilineEntry × List Delivery × Option String :=
  let p := disjointRe c.expressionRegex entry
  (fetchLineAndUpdate p.1 (unorderedGroupUpdate c now labels t entry p.1 p.2)
      multilines, [], none)

/-- `handleContinueMode`: a line carrying the continuation mark (nonempty
selection of the primary expression) is buffered; a line without it closes
and delivers the pending record, or is delivered directly when nothing is
pending. -/
def handleContinueMode (c : ModeConfig) (next : Handler) (now : Instant)
    (ml : MultilineEntry) (labels : LabelSet) (t : Instant) (entry : String) :
    MultilineEntry × List Delivery × Option String :=
  let line := selection (some c.expressionRegex) entry
  if line ≠ "" then
    if ml.lines > 0 then
      (ml.append labels (selection c.nextLineRegex line) c.separator, [], none)
    else
      (ml.init labels t now (selection c.firstLineRegex line), [], none)
  else
    if ml.lines > 0 then
      let ml2 := ml.append labels (selection c.nextLineRegex entry) c.separator
      (ml2.reset, [toDelivery ml2], next ml2.labels ml2.timestamp ml2.entry)
    else
      (ml, [⟨labels, t, entry⟩], next labels t entry)

/-! ## Construction (`NewMultiLineParser`) -/

def ErrEmptyMultiLineConfig : String := "empty configuration"
def ErrCouldNotCompileMultiLineExpressionRegex : String :=
  "could not compile expression"
def ErrCouldNotCompileMultiLineFirstLineRegex : String :=
  "could not compile first_expression"
def ErrCouldNotCompileMultiLineNextLineRegex : String :=
  "could not compile next_expression"
def ErrCouldMultiLineExpressionRequiredRegex : String :=
  "expression is required"
def ErrMultiLineUnsupportedMode : String := "unsupported mode"
def ErrMultiLineUnvalidMaxWaitTime : String :=
  "invalid max_idle_duration duration"
def ErrMultiLineModeRequireMaxWait : String :=
  "mode require max_idle_duration duration > 0 "

/-- The yaml `Config` struct. -/
structure Config where
  mode : String
  expression : String
  firstLineExpression : String
  nextLineExpression : String
  idleDuration : String
  separator : String
  deriving DecidableEq, Repr

/-- The four mode handlers the `switch config.Mode` can select. -/
inductive Mode where
  | newline
  | group
  | unorderedGroup
  | cont
  deriving DecidableEq, Repr

/-- The fields of a successfully constructed `multiLineParser`. -/
structure CompiledParser where
  modeHandler : Mode
  multitrack : Bool
  expressionRegex : Regex
  firstLineRegex : Option Regex
  nextLineRegex : Option Regex
  maxWait : Duration
  separator : String
  multilines : List MultilineEntry
  multiline : Option MultilineEntry
  flusherStarted : Bool

/-- The optional-expression blocks of `NewMultiLineParser`: compile when the
text is nonempty, fail with the wrapping message when compilation fails. -/
def compileOptionalExpr (compile : String → Option Regex) (s : String)
    (errMsg : String) : Except String (Option Regex) :=
  if s.length > 0 then
    match compile s with
    | none => .error errMsg
    | some re => .ok (some re)
  else .ok none

/-- The max-wait block of `NewMultiLineParser`: default `5 * time.Second`,
overridden by parsing `config.IdleDuration` when nonempty. -/
def resolveMaxWait (parseDuration : String → Option Duration)
    (idleDuration : String) : Except String Duration :=
  if idleDuration ≠ "" then
    match parseDuration idleDuration with
    | none => .error ErrMultiLineUnvalidMaxWaitTime
    | some d => .ok d
  else .ok (5 * second)

/-- The `switch config.Mode` of `NewMultiLineParser`: the selected handler,
`multitrack`, and `requireMaxWait`. -/
def resolveMode (mode : String) : Except String (Mode × Bool × Bool) :=
  if mode = "newline" then .ok (.newline, false, false)
  else if mode = "group" then .ok (.group, false, true)
  else if mode = "unordered_group" then .ok (.unorderedGroup, true, true)
  else if mode = "continue" then .ok (.cont, false, false)
  else .error ErrMultiLineUnsupportedMode

/-- `NewMultiLineParser`, with the regexp compiler and the duration parser
abstracted as oracles (`none` = the library call fails).  The nil-`next`
fallback and logging do not affect the construction result and are not
modelled. -/
def NewMultiLineParser (compile : String → Option Regex)
    (parseDuration : String → Option Duration) (config? : Option Config) :
    Except String CompiledParser :=
  match config? with
  | none => .error ErrEmptyMultiLineConfig
  | some config =>
    (if config.expression.length > 0 then
      match compile config.expression with
      | none => Except.error ErrCouldNotCompileMultiLineExpressionRegex
      | some re => Except.ok re
    else Except.error ErrCouldMultiLineExpressionRequiredRegex).bind
    fun expressionRegex =>
    (compileOptionalExpr compile config.firstLineExpression
      ErrCouldNotCompileMultiLineFirstLineRegex).bind fun firstLineRegex =>
    (compileOptionalExpr compile config.nextLineExpression
      ErrCouldNotCompileMultiLineNextLineRegex).bind fun nextLineRegex =>
    (resolveMaxWait parseDuration config.idleDuration).bind fun maxWait =>
    (resolveMode config.mode).bind fun m =>
    let ml : CompiledParser :=
      { modeHandler := m.1
        multitrack := m.2.1
        expressionRegex := expressionRegex
        firstLineRegex := firstLineRegex
        nextLineRegex := nextLineRegex
        maxWait := maxWait
        separator := config.separator
        multilines := []
        multiline := if m.2.1 then none else some (newMultiLineEntry "")
        flusherStarted := maxWait > 0 }
    if maxWait > 0 then .ok ml
    else if m.2.2 then .error ErrMultiLineModeRequireMaxWait
    else .ok ml

/-! ## The periodic sweep's timing -/

/-- The ticker interval of `startFlusher`: `c.maxWait / 2`. -/
def sweepTickInterval (maxWait : Duration) : Duration := maxWait / 2

/-- The first ticker time at which the age gate `now - enrollTime > maxWait`
holds for a record enrolled at `e` (ticks fire at the positive multiples of
`sweepTickInterval maxWait`, counting time from the flusher's start). -/
def firstDeliveryTick (maxWait : Duration) (e : Instant) : Instant :=
  ((e + maxWait) / sweepTickInterval maxWait + 1) * sweepTickInterval maxWait

/-- The loop invariant of `disjoint`: the chunks interleave to the prefix of
the line the cursor has consumed, and the chunk lists stay equally long. -/
def DisjInv (s : List Char) (st : DisjointState) : Prop :=
  (interleaveChunks st.inv st.sel).flatten = s.take st.last ∧
    st.inv.length = st.sel.length

/-! ## Closed form of the flush loop -/

/-- The delivery gate of `flush` for a tracked entry: it has lines and is
forced or strictly older than `maxWait`. -/
def deliverable (now : Instant) (maxWait : Duration) (force : Bool)
    (t : MultilineEntry) : Bool :=
  decide (¬ t.lines = 0 ∧ (force = true ∨ now - t.enrollTime > maxWait))

/-- The survival gate of the multitrack `flush` loop: the entry has lines
and is neither forced out nor timed out. -/
def survivor (now : Instant) (maxWait : Duration) (force : Bool)
    (t : MultilineEntry) : Bool :=
  decide (¬ t.lines = 0 ∧ ¬ (force = true ∨ now - t.enrollTime > maxWait))

/-- The idle duration a successful construction ends with: the parse of the
configured text, or the 5-second default when unspecified. -/
def effectiveIdleDuration (parseDuration : String → Option Duration)
    (idleDuration : String) : Duration :=
  if idleDuration ≠ "" then (parseDuration idleDuration).getD 0
  else 5 * second

/-- The construction-failure disjunction of the specification. -/
def ConstructionFails (compile : String → Option Regex)
    (pd : String → Option Duration) (config : Config) : Prop :=
  config.expression = ""
  ∨ compile config.expression = none
  ∨ (¬ config.firstLineExpression = ""
      ∧ compile config.firstLineExpression = none)
  ∨ (¬ config.nextLineExpression = ""
      ∧ compile config.nextLineExpression = none)
  ∨ (¬ config.mode = "newline" ∧ ¬ config.mode = "group"
      ∧ ¬ config.mode = "unordered_group" ∧ ¬ config.mode = "continue")
  ∨ (¬ config.idleDuration = "" ∧ pd config.idleDuration = none)
  ∨ ((config.mode = "group" ∨ config.mode = "unordered_group")
      ∧ ¬ 0 < effectiveIdleDuration pd config.idleDuration)

/-- A concrete compiler oracle whose expressions all compile (to an
expression with no matches). -/
def compile0 : String → Option Regex := fun _ => some ⟨fun _ => []⟩

/-- A concrete duration parser that fails on every text. -/
def pd0 : String → Option Duration := fun _ => none

/-- A concrete newline-mode configuration with default idle duration. -/
def cfg0 : Config :=
  { mode := "newline", expression := "x", firstLineExpression := "",
    nextLineExpression := "", idleDuration := "", separator := "" }

/-- The instance `cfg0` constructs. -/
def parser0 : CompiledParser :=
  { modeHandler := .newline, multitrack := false,
    expressionRegex := ⟨fun _ => []⟩, firstLineRegex := none,
    nextLineRegex := none, maxWait := 5 * second, separator := "",
    multilines := [], multiline := some (newMultiLineEntry ""),
    flusherStarted := true }

/-- An expression that matches nothing anywhere. -/
def re0 : Regex := ⟨fun _ => []⟩

/-- A concrete group-mode configuration over `re0`. -/
def mc0 : ModeConfig :=
  { expressionRegex := re0, firstLineRegex := none, nextLineRegex := none,
    separator := "-" }

/-- A downstream handler that always succeeds. -/
def next0 : Handler := fun _ _ _ => none

/-- A concrete delivered record whose slot is about to be reset. -/
def d0 : MultilineEntry :=
  { enrollTime := 5, labels := [("a", "1")], timestamp := 7, key := "",
    entry := "old", lines := 3 }

/-! ## Sweep timing -/

/-- A concrete nonempty record enrolled at time 1. -/
def rec3 : MultilineEntry :=
  { enrollTime := 1, labels := [], timestamp := 0, key := "", entry := "x",
    lines := 1 }

/-! ## Round-trip of the pattern extractor -/

/-- Appending one chunk to each side of an equal-length interleaving appends
the two chunks at the end, unselected first. -/
lemma interleaveChunks_snoc_both (a b : List Char) :
    ∀ (is ss : List (List Char)), is.length = ss.length →
      interleaveChunks (is ++ [a]) (ss ++ [b]) =
        interleaveChunks is ss ++ [a, b]
  | [], [], _ => rfl
  | [], s :: ss, h => by simp at h
  | i :: is, [], h => by simp at h
  | i :: is, s :: ss, h => by
    show i :: s :: interleaveChunks (is ++ [a]) (ss ++ [b]) =
      i :: s :: (interleaveChunks is ss ++ [a, b])
    rw [interleaveChunks_snoc_both a b is ss (by simpa using h)]

/-- Appending a trailing unselected chunk to an equal-length interleaving
appends it at the end. -/
lemma interleaveChunks_snoc_left (a : List Char) :
    ∀ (is ss : List (List Char)), is.length = ss.length →
      interleaveChunks (is ++ [a]) ss = interleaveChunks is ss ++ [a]
  | [], [], _ => rfl
  | [], s :: ss, h => by simp at h
  | i :: is, [], h => by simp at h
  | i :: is, s :: ss, h => by
    show i :: s :: interleaveChunks (is ++ [a]) ss =
      i :: s :: (interleaveChunks is ss ++ [a])
    rw [interleaveChunks_snoc_left a is ss (by simpa using h)]

/-- An interleaving carries every character of both chunk lists. -/
lemma interleaveChunks_flatten_length :
    ∀ (is ss : List (List Char)),
      (interleaveChunks is ss).flatten.length =
        is.flatten.length + ss.flatten.length
  | [], ss => by simp [interleaveChunks]
  | i :: is, [] => by simp [interleaveChunks]
  | i :: is, s :: ss => by
    simp only [interleaveChunks, List.flatten_cons, List.length_append]
    rw [interleaveChunks_flatten_length is ss]
    omega

/-- Gluing an initial segment with the following slice. -/
lemma take_append_substr (s : List Char) (a b : Nat) (hab : a ≤ b) :
    s.take a ++ substr s a b = s.take b := by
  have h1 : (s.take b).take a = s.take a := by
    rw [List.take_take, min_eq_left hab]
  calc s.take a ++ substr s a b
      = (s.take b).take a ++ (s.take b).drop a := by rw [h1]; rfl
    _ = s.take b := List.take_append_drop ..

/-- One group step preserves the invariant. -/
lemma disjointGroupStep_inv (s : List Char) (st : DisjointState)
    (g : Int × Int) (h : DisjInv s st) :
    DisjInv s (disjointGroupStep s st g) := by
  obtain ⟨h1, h2⟩ := h
  unfold disjointGroupStep
  split
  · exact ⟨h1, h2⟩
  · split
    · next hneg hcond =>
      obtain ⟨hgt, hge⟩ := hcond
      have hbeg : st.last ≤ g.1.toNat := by omega
      have hend : g.1.toNat ≤ g.2.toNat := by omega
      refine ⟨?_, by simp [h2]⟩
      simp only
      rw [interleaveChunks_snoc_both _ _ _ _ h2, List.flatten_append, h1]
      simp only [List.flatten_cons, List.flatten_nil, List.append_nil,
        ← List.append_assoc]
      rw [take_append_substr s st.last g.1.toNat hbeg,
        take_append_substr s g.1.toNat g.2.toNat hend]
    · exact ⟨h1, h2⟩

/-- The inner fold over one match's groups preserves the invariant. -/
lemma disjointMatchFold_inv (s : List Char) :
    ∀ (m : List (Int × Int)) (st : DisjointState), DisjInv s st →
      DisjInv s (m.foldl (disjointGroupStep s) st)
  | [], st, h => h
  | g :: m, st, h =>
    disjointMatchFold_inv s m (disjointGroupStep s st g)
      (disjointGroupStep_inv s st g h)

/-- The whole scan satisfies the invariant. -/
lemma disjointScan_inv (ms : List (List (Int × Int))) (s : List Char) :
    DisjInv s (disjointScan ms s) := by
  suffices h : ∀ (l : List (List (Int × Int))) (st : DisjointState),
      DisjInv s st →
      DisjInv s (l.foldl (fun st m => m.foldl (disjointGroupStep s) st) st) by
    exact h ms ⟨[], [], 0⟩ ⟨rfl, rfl⟩
  intro l
  induction l with
  | nil => exact fun st h => h
  | cons m l ih =>
    exact fun st h => ih _ (disjointMatchFold_inv s m st h)

/-- The chunk lists of `disjoint` interleave back to the original line. -/
lemma disjointChunks_reconstruct (ms : List (List (Int × Int)))
    (s : List Char) :
    (interleaveChunks (disjointInvChunks ms s)
      (disjointSelChunks ms s)).flatten = s := by
  obtain ⟨h1, h2⟩ := disjointScan_inv ms s
  unfold disjointInvChunks disjointSelChunks
  simp only
  split
  · next hlt =>
    rw [interleaveChunks_snoc_left _ _ _ h2, List.flatten_append, h1]
    simp [List.take_append_drop]
  · next hge =>
    rw [h1, List.take_of_length_le (by omega)]

/-- C4: for every compiled expression (abstracted by the match index data it
reports) and every input line, the (selected, unselected) pair returned by
`disjoint` partitions the line: the selected and unselected outputs are the
concatenations of the extractor's chunk sequences, the positional
recombination of those chunk sequences reconstructs the original line
character for character, and in particular every character of the line
appears in exactly one of the two outputs, in left-to-right order.  This
holds for all match shapes, so in particular under the spec's group-shape
condition. -/
theorem disjoint_partition_roundtrip (ms : List (List (Int × Int)))
    (s : List Char) :
    (disjoint ms s).1 = (disjointSelChunks ms s).flatten
    ∧ (disjoint ms s).2 = (disjointInvChunks ms s).flatten
    ∧ (interleaveChunks (disjointInvChunks ms s)
        (disjointSelChunks ms s)).flatten = s
    ∧ (disjoint ms s).1.length + (disjoint ms s).2.length = s.length := by
  refine ⟨rfl, rfl, disjointChunks_reconstruct ms s, ?_⟩
  have h := congrArg List.length (disjointChunks_reconstruct ms s)
  rw [interleaveChunks_flatten_length] at h
  simp only [disjoint]
  omega

/-- C8: in unordered_group mode, processing a line never invokes the
downstream handler and always returns a nil error, for every configuration,
state and incoming line: a key's record can only leave the registry through
the sweep/flush path. -/
theorem unordered_group_never_delivers (c : ModeConfig) (next : Handler)
    (now : Instant) (multilines : List MultilineEntry) (labels : LabelSet)
    (t : Instant) (entry : String) :
    (handleUnorderedGroupMode c next now multilines labels t entry).2.1 = []
    ∧ (handleUnorderedGroupMode c next now multilines labels t entry).2.2
        = none :=
  ⟨rfl, rfl⟩

/-- `flush` never touches the ticker field. -/
lemma flush_flusher_eq (next : Handler) (now : Instant) (maxWait : Duration)
    (force : Bool) (p : ParserState) :
    (flush next now maxWait force p).1.flusher = p.flusher := by
  simp only [flush]
  split <;> rfl

/-- C10: `Stop` always returns a nil error: it stops the ticker when one
exists, performs a forced flush, and discards whatever combined error that
flush's downstream deliveries produced, while keeping the flushed state and
deliveries. -/
theorem stop_returns_nil (next : Handler) (now : Instant)
    (maxWait : Duration) (p : ParserState) :
    (Stop next now maxWait p).2.2 = none
    ∧ (Stop next now maxWait p).1.flusher = p.flusher.map (fun _ => false)
    ∧ (Stop next now maxWait p).1 =
        (flush next now maxWait true
          { p with flusher := p.flusher.map (fun _ => false) }).1
    ∧ (Stop next now maxWait p).2.1 =
        (flush next now maxWait true
          { p with flusher := p.flusher.map (fun _ => false) }).2.1 := by
  have hp1 : (match p.flusher with
      | some _ => { p with flusher := some false }
      | none => p) = { p with flusher := p.flusher.map (fun _ => false) } := by
    obtain ⟨mt, mls, ml, fl⟩ := p
    cases fl <;> rfl
  refine ⟨rfl, ?_, ?_, ?_⟩
  · simp only [Stop, hp1]
    rw [flush_flusher_eq]
  · simp only [Stop, hp1]
  · simp only [Stop, hp1]

/-- The multitrack flush loop, from any accumulator, in closed form. -/
lemma flushMulti_go (next : Handler) (now : Instant) (maxWait : Duration)
    (force : Bool) :
    ∀ (ls : List MultilineEntry) (acc : FlushAcc),
      ls.foldl (flushStep next now maxWait force) acc =
        ⟨acc.nextGen ++ ls.filter (survivor now maxWait force),
         acc.delivered ++
           (ls.filter (deliverable now maxWait force)).map toDelivery,
         acc.errs ++ (ls.filter (deliverable now maxWait force)).filterMap
           (fun t => next t.labels t.timestamp t.entry)⟩
  | [], acc => by simp
  | t :: ls, acc => by
    rw [List.foldl_cons, flushMulti_go next now maxWait force ls]
    by_cases h0 : t.lines = 0
    · have hd : deliverable now maxWait force t = false := by
        simp [deliverable, h0]
      have hs : survivor now maxWait force t = false := by
        simp [survivor, h0]
      simp [flushStep, h0, List.filter_cons, hd, hs]
    · by_cases hg : force = true ∨ now - t.enrollTime > maxWait
      · have hd : deliverable now maxWait force t = true := by
          simp [deliverable, h0, hg]
        have hs : survivor now maxWait force t = false := by
          simp [survivor, h0, hg]
        cases hnext : next t.labels t.timestamp t.entry <;>
          simp [flushStep, h0, hg, List.filter_cons, hd, hs, hnext,
            List.filterMap_cons]
      · have hd : deliverable now maxWait force t = false := by
          simp [deliverable, h0, hg]
        have hs : survivor now maxWait force t = true := by
          simp [survivor, h0, hg]
        simp [flushStep, h0, hg, List.filter_cons, hd, hs]

/-- `flushMulti` in closed form: survivors, deliveries and collected errors
are filters of the tracked list. -/
lemma flushMulti_eq (next : Handler) (now : Instant) (maxWait : Duration)
    (force : Bool) (ls : List MultilineEntry) :
    flushMulti next now maxWait force ls =
      ⟨ls.filter (survivor now maxWait force),
       (ls.filter (deliverable now maxWait force)).map toDelivery,
       (ls.filter (deliverable now maxWait force)).filterMap
         (fun t => next t.labels t.timestamp t.entry)⟩ := by
  simpa [flushMulti] using
    flushMulti_go next now maxWait force ls ⟨[], [], []⟩

/-- C5: forced flush delivers a tracked record exactly when its line count
is positive, regardless of age, and then removes it (multitrack) or resets
it (single track); unforced sweep delivers exactly the records with a
positive line count whose age `now - enrollTime` strictly exceeds the idle
duration; and a record with no lines is never delivered by sweep or flush
(the multitrack filter drops it silently, the single slot keeps it). -/
theorem flush_delivery_semantics (next : Handler) (now : Instant)
    (maxWait : Duration) (force : Bool) (ls : List MultilineEntry)
    (t : MultilineEntry) :
    ((flushMulti next now maxWait true ls).delivered
        = (ls.filter (fun u => decide (0 < u.lines))).map toDelivery
      ∧ (flushMulti next now maxWait true ls).nextGen = [])
    ∧ ((flushMulti next now maxWait false ls).delivered
        = (ls.filter (fun u =>
            decide (0 < u.lines ∧ now - u.enrollTime > maxWait))).map
              toDelivery)
    ∧ (flushSingle next now maxWait true t
        = if 0 < t.lines then
            (t.reset, [toDelivery t],
              (next t.labels t.timestamp t.entry).toList)
          else (t, [], []))
    ∧ (flushSingle next now maxWait false t
        = if 0 < t.lines ∧ now - t.enrollTime > maxWait then
            (t.reset, [toDelivery t],
              (next t.labels t.timestamp t.entry).toList)
          else (t, [], []))
    ∧ ((flushMulti next now maxWait force
          (ls.filter (fun u => decide (u.lines = 0)))).delivered = [])
    ∧ ((flushSingle next now maxWait force { t with lines := 0 }).2.1
        = []) := by
  refine ⟨⟨?_, ?_⟩, ?_, ?_, ?_, ?_, ?_⟩
  · rw [flushMulti_eq]
    have : deliverable now maxWait true = fun u => decide (0 < u.lines) := by
      funext u
      simp [deliverable, Nat.pos_iff_ne_zero]
    rw [this]
  · rw [flushMulti_eq]
    have : survivor now maxWait true = fun _ => false := by
      funext u
      simp [survivor]
    simp [this]
  · rw [flushMulti_eq]
    have : deliverable now maxWait false
        = fun u => decide (0 < u.lines ∧ now - u.enrollTime > maxWait) := by
      funext u
      simp [deliverable, Nat.pos_iff_ne_zero]
    rw [this]
  · simp only [flushSingle]
    split
    · next h =>
      rw [if_pos h.1]
    · next h =>
      rw [if_neg]
      intro hpos
      exact h ⟨hpos, Or.inl trivial⟩
  · simp only [flushSingle]
    split
    · next h =>
      rcases h.2 with h2 | h2
      · exact absurd h2 (by simp)
      · rw [if_pos ⟨h.1, h2⟩]
    · next h =>
      rw [if_neg]
      intro ⟨hpos, hage⟩
      exact h ⟨hpos, Or.inr hage⟩
  · rw [flushMulti_eq]
    simp only
    rw [List.filter_filter]
    have : (fun u => deliverable now maxWait force u
        && decide (u.lines = 0)) = fun _ => false := by
      funext u
      by_cases h : u.lines = 0 <;> simp [deliverable, h]
    rw [this]
    simp
  · simp [flushSingle]

/-- C7: a single flush pass attempts every eligible record even when some
downstream calls fail: the post-flush state and the list of attempted
deliveries do not depend on the downstream handler's results at all (each
delivered record is reset or removed even when its call errored), and the
returned error is exactly the combination of the failures among the
attempted deliveries (nil when none failed). -/
theorem flush_errors_collected_state_unaffected (next next2 : Handler)
    (now : Instant) (maxWait : Duration) (force : Bool) (p : ParserState) :
    (flush next now maxWait force p).1 = (flush next2 now maxWait force p).1
    ∧ (flush next now maxWait force p).2.1
        = (flush next2 now maxWait force p).2.1
    ∧ (flush next now maxWait force p).2.2 =
        multiErrorResult ((flush next now maxWait force p).2.1.filterMap
          (fun d => next d.labels d.timestamp d.entry)) := by
  simp only [flush]
  split
  · rw [flushMulti_eq, flushMulti_eq]
    refine ⟨rfl, rfl, ?_⟩
    simp only [List.filterMap_map]
    rfl
  · simp only [flushSingle]
    split
    · exact ⟨rfl, rfl, rfl⟩
    · exact ⟨rfl, rfl, rfl⟩

/-- C2: the reported timestamp of a record is frozen at its first line and
its enroll time at its creation: `append` never changes either field,
`init` sets them from the line's timestamp and the current time, every mode
handler that calls downstream passes the stored (frozen) record fields
(`continue` additionally delivers a bufferless single line with that line's
own timestamp), and the sweep/flush paths deliver exactly the stored
record tuples. -/
theorem record_timestamp_frozen (c : ModeConfig) (next : Handler)
    (now : Instant) (d : MultilineEntry) (labels : LabelSet) (t : Instant)
    (entry sep : String) (maxWait : Duration) (force : Bool)
    (ls : List MultilineEntry) :
    (d.append labels entry sep).timestamp = d.timestamp
    ∧ (d.append labels entry sep).enrollTime = d.enrollTime
    ∧ (d.init labels t now entry).timestamp = t
    ∧ (d.init labels t now entry).enrollTime = now
    ∧ ((handleNewLineMode c next now d labels t entry).2.1 = []
        ∨ (handleNewLineMode c next now d labels t entry).2.1
            = [⟨d.labels, d.timestamp, d.entry⟩])
    ∧ ((handleGroupMode c next now d labels t entry).2.1 = []
        ∨ (handleGroupMode c next now d labels t entry).2.1
            = [⟨d.labels, d.timestamp, d.entry⟩])
    ∧ ((handleContinueMode c next now d labels t entry).2.1 = []
        ∨ (∃ lbs e, (handleContinueMode c next now d labels t entry).2.1
            = [⟨lbs, d.timestamp, e⟩])
        ∨ (d.lines = 0 ∧ (handleContinueMode c next now d labels t entry).2.1
            = [⟨labels, t, entry⟩]))
    ∧ (handleUnorderedGroupMode c next now ls labels t entry).2.1 = []
    ∧ (flushMulti next now maxWait force ls).delivered
        = (ls.filter (deliverable now maxWait force)).map toDelivery
    ∧ ((flushSingle next now maxWait force d).2.1 = []
        ∨ (flushSingle next now maxWait force d).2.1
            = [⟨d.labels, d.timestamp, d.entry⟩]) := by
  refine ⟨rfl, rfl, rfl, rfl, ?_, ?_, ?_, rfl, ?_, ?_⟩
  · simp only [handleNewLineMode]
    split
    · exact Or.inl rfl
    · split
      · exact Or.inr rfl
      · exact Or.inl rfl
  · simp only [handleGroupMode]
    split
    · exact Or.inl rfl
    · split
      · exact Or.inr rfl
      · exact Or.inl rfl
  · simp only [handleContinueMode]
    split
    · split
      · exact Or.inl rfl
      · exact Or.inl rfl
    · split
      · exact Or.inr (Or.inl ⟨_, _, rfl⟩)
      · next h =>
        exact Or.inr (Or.inr ⟨Nat.eq_zero_of_not_pos h, rfl⟩)
  · rw [flushMulti_eq]
  · simp only [flushSingle]
    split
    · exact Or.inr rfl
    · exact Or.inl rfl

/-- C1 (the claim names the intended behaviour; the code diverges): the
source line `d.labels = labels.Merge(labels)` merges the incoming label set
with itself instead of with the record's accumulated labels, so an append
silently discards the accumulated label state.  Concretely, a record that
had accumulated the label a=1, appended with a line labelled b=2, ends with
labels lacking a — whereas merging the incoming set into the accumulated
set (as the claim and the function's own doc comment describe) keeps both. -/
theorem append_discards_accumulated_labels :
    ((({ enrollTime := 0, labels := [("a", "1")], timestamp := 0, key := "",
          entry := "e", lines := 1 } : MultilineEntry).append
        [("b", "2")] "x" "").labels.get "a" = none)
    ∧ ((({ enrollTime := 0, labels := [("a", "1")], timestamp := 0,
            key := "", entry := "e", lines := 1 } : MultilineEntry).append
        [("b", "2")] "x" "").labels.get "b" = some "2")
    ∧ ((LabelSet.Merge [("a", "1")] [("b", "2")]).get "a" = some "1")
    ∧ ((LabelSet.Merge [("a", "1")] [("b", "2")]).get "b" = some "2") :=
  ⟨rfl, rfl, rfl, rfl⟩

/-! ## Construction error conditions -/

/-- A Go string has positive length exactly when it is nonempty. -/
lemma string_length_pos (s : String) : s.length > 0 ↔ ¬ s = "" := by
  cases s with
  | mk data =>
    cases data with
    | nil => simp [String.length]
    | cons a l =>
      refine ⟨fun _ hcon => ?_, fun _ => ?_⟩
      · exact List.noConfusion (congrArg String.data hcon)
      · simp [String.length]

/-- The optional-expression stage succeeds exactly when the text is empty
or compiles. -/
lemma compileOptionalExpr_cases (compile : String → Option Regex)
    (s msg : String) :
    (∃ v, compileOptionalExpr compile s msg = .ok v
      ∧ ¬ (¬ s = "" ∧ compile s = none))
    ∨ (compileOptionalExpr compile s msg = .error msg
      ∧ (¬ s = "" ∧ compile s = none)) := by
  by_cases h : s = ""
  · refine Or.inl ⟨none, ?_, by tauto⟩
    have : ¬ s.length > 0 := by
      rw [h]
      decide
    simp [compileOptionalExpr, this]
  · cases hc : compile s with
    | none =>
      refine Or.inr ⟨?_, h, rfl⟩
      simp [compileOptionalExpr, (string_length_pos s).mpr h, hc]
    | some re =>
      refine Or.inl ⟨some re, ?_, fun hh => by simp [hc] at hh⟩
      simp [compileOptionalExpr, (string_length_pos s).mpr h, hc]

/-- The max-wait stage yields the effective idle duration exactly when the
text is empty or parses. -/
lemma resolveMaxWait_cases (pd : String → Option Duration) (idle : String) :
    (resolveMaxWait pd idle = .ok (effectiveIdleDuration pd idle)
      ∧ ¬ (¬ idle = "" ∧ pd idle = none))
    ∨ (resolveMaxWait pd idle = .error ErrMultiLineUnvalidMaxWaitTime
      ∧ (¬ idle = "" ∧ pd idle = none)) := by
  by_cases h : idle = ""
  · exact Or.inl ⟨by simp [resolveMaxWait, effectiveIdleDuration, h], by tauto⟩
  · cases hpd : pd idle with
    | none =>
      exact Or.inr ⟨by simp [resolveMaxWait, h, hpd], h, rfl⟩
    | some d =>
      refine Or.inl ⟨?_, fun hh => by simp [hpd] at hh⟩
      simp [resolveMaxWait, effectiveIdleDuration, h, hpd]

/-- The mode switch, case by case. -/
lemma resolveMode_cases (mode : String) :
    (mode = "newline" ∧ resolveMode mode = .ok (.newline, false, false))
    ∨ (mode = "group" ∧ resolveMode mode = .ok (.group, false, true))
    ∨ (mode = "unordered_group"
        ∧ resolveMode mode = .ok (.unorderedGroup, true, true))
    ∨ (mode = "continue" ∧ resolveMode mode = .ok (.cont, false, false))
    ∨ ((¬ mode = "newline" ∧ ¬ mode = "group" ∧ ¬ mode = "unordered_group"
          ∧ ¬ mode = "continue")
        ∧ resolveMode mode = .error ErrMultiLineUnsupportedMode) := by
  by_cases h1 : mode = "newline"
  · exact Or.inl ⟨h1, by simp [resolveMode, h1]⟩
  by_cases h2 : mode = "group"
  · exact Or.inr (Or.inl ⟨h2, by simp [resolveMode, h1, h2]⟩)
  by_cases h3 : mode = "unordered_group"
  · exact Or.inr (Or.inr (Or.inl ⟨h3, by simp [resolveMode, h1, h2, h3]⟩))
  by_cases h4 : mode = "continue"
  · exact Or.inr (Or.inr (Or.inr (Or.inl
      ⟨h4, by simp [resolveMode, h1, h2, h3, h4]⟩)))
  · exact Or.inr (Or.inr (Or.inr (Or.inr
      ⟨⟨h1, h2, h3, h4⟩, by simp [resolveMode, h1, h2, h3, h4]⟩)))

/-- Success of `NewMultiLineParser` on a present config is exactly the
negation of the failure disjunction. -/
lemma NewMultiLineParser_isOk_iff (compile : String → Option Regex)
    (pd : String → Option Duration) (config : Config) :
    (NewMultiLineParser compile pd (some config)).isOk = true ↔
      ¬ ConstructionFails compile pd config := by
  unfold ConstructionFails
  by_cases he : config.expression = ""
  · have h1 : ¬ config.expression.length > 0 := by
      rw [he]
      decide
    simp [NewMultiLineParser, h1, he, Except.bind, Except.isOk,
      Except.toBool]
  have h1 : config.expression.length > 0 := (string_length_pos _).mpr he
  cases hce : compile config.expression with
  | none =>
    simp [NewMultiLineParser, h1, he, hce, Except.bind, Except.isOk,
      Except.toBool]
  | some reE =>
    rcases compileOptionalExpr_cases compile config.firstLineExpression
        ErrCouldNotCompileMultiLineFirstLineRegex with
      ⟨vF, hF, hFok⟩ | ⟨hF, hFfail⟩
    · rcases compileOptionalExpr_cases compile config.nextLineExpression
          ErrCouldNotCompileMultiLineNextLineRegex with
        ⟨vN, hN, hNok⟩ | ⟨hN, hNfail⟩
      · rcases resolveMaxWait_cases pd config.idleDuration with
          ⟨hW, hWok⟩ | ⟨hW, hWfail⟩
        · rcases resolveMode_cases config.mode with
            ⟨hm, hM⟩ | ⟨hm, hM⟩ | ⟨hm, hM⟩ | ⟨hm, hM⟩ | ⟨hm, hM⟩ <;>
            by_cases hw : 0 < effectiveIdleDuration pd config.idleDuration <;>
            simp [NewMultiLineParser, h1, he, hce, hF, hN, hW, hM, hm, hw,
              resolveMode, Except.bind, Except.isOk, Except.toBool, hFok,
              hNok, hWok]
        · simp [NewMultiLineParser, h1, he, hce, hF, hN, hW, hWfail,
            Except.bind, Except.isOk, Except.toBool, hFok, hNok]
      · simp [NewMultiLineParser, h1, he, hce, hF, hN, hNfail, Except.bind,
          Except.isOk, Except.toBool, hFok]
    · simp [NewMultiLineParser, h1, he, hce, hF, hFfail, Except.bind,
        Except.isOk, Except.toBool]

/-- A successful construction's idle duration is the effective one (the
parsed text, or 5 seconds when unspecified). -/
lemma NewMultiLineParser_ok_maxWait (compile : String → Option Regex)
    (pd : String → Option Duration) (config : Config) (p : CompiledParser)
    (hp : NewMultiLineParser compile pd (some config) = .ok p) :
    p.maxWait = effectiveIdleDuration pd config.idleDuration := by
  by_cases he : config.expression = ""
  · have h1 : ¬ config.expression.length > 0 := by
      rw [he]
      decide
    simp [NewMultiLineParser, h1, Except.bind] at hp
  have h1 := (string_length_pos config.expression).mpr he
  cases hce : compile config.expression with
  | none => simp [NewMultiLineParser, h1, hce, Except.bind] at hp
  | some reE =>
    rcases compileOptionalExpr_cases compile config.firstLineExpression
        ErrCouldNotCompileMultiLineFirstLineRegex with
      ⟨vF, hF, _⟩ | ⟨hF, _⟩
    · rcases compileOptionalExpr_cases compile config.nextLineExpression
          ErrCouldNotCompileMultiLineNextLineRegex with
        ⟨vN, hN, _⟩ | ⟨hN, _⟩
      · rcases resolveMaxWait_cases pd config.idleDuration with
          ⟨hW, _⟩ | ⟨hW, _⟩
        · rcases resolveMode_cases config.mode with
            ⟨hm, hM⟩ | ⟨hm, hM⟩ | ⟨hm, hM⟩ | ⟨hm, hM⟩ | ⟨hm, hM⟩ <;>
            by_cases hw : 0 < effectiveIdleDuration pd config.idleDuration <;>
            simp [NewMultiLineParser, h1, hce, hF, hN, hW, hM, hm, hw,
              resolveMode, Except.bind] at hp <;>
            rw [← hp]
        · simp [NewMultiLineParser, h1, hce, hF, hN, hW, Except.bind] at hp
      · simp [NewMultiLineParser, h1, hce, hF, hN, Except.bind] at hp
    · simp [NewMultiLineParser, h1, hce, hF, Except.bind] at hp

/-- C6: construction returns an error and no instance exactly when the
configuration object is missing, the primary expression is empty or does
not compile, a present first-line or next-line expression does not compile,
the mode is not one of the four enumerated values, the idle-duration text
does not parse, or the mode is group or unordered_group while the effective
idle duration is not positive; otherwise an instance is created, with the
idle duration defaulting to 5 seconds when unspecified. -/
theorem construction_error_conditions (compile : String → Option Regex)
    (pd : String → Option Duration) (config : Config) :
    (NewMultiLineParser compile pd none = .error ErrEmptyMultiLineConfig)
    ∧ ((NewMultiLineParser compile pd (some config)).isOk = true ↔
        ¬ ConstructionFails compile pd config)
    ∧ (∀ p, NewMultiLineParser compile pd (some config) = .ok p →
        p.maxWait = effectiveIdleDuration pd config.idleDuration)
    ∧ effectiveIdleDuration pd "" = 5 * second :=
  ⟨rfl, NewMultiLineParser_isOk_iff compile pd config,
    fun p hp => NewMultiLineParser_ok_maxWait compile pd config p hp,
    by simp [effectiveIdleDuration]⟩

/-- Closed instantiation of the construction theorem: `cfg0` constructs
successfully, its idle duration is the 5-second default. -/
theorem construction_error_conditions_witness :
    NewMultiLineParser compile0 pd0 (some cfg0) = .ok parser0
    ∧ parser0.maxWait = effectiveIdleDuration pd0 cfg0.idleDuration
    ∧ effectiveIdleDuration pd0 "" = 5 * second :=
  ⟨rfl, (construction_error_conditions compile0 pd0 cfg0).2.2.1 parser0 rfl,
    (construction_error_conditions compile0 pd0 cfg0).2.2.2⟩

/-! ## Group-mode slot reuse after reset -/

/-- C9: `reset` clears the single slot's labels, text and line count but
preserves its group key (and the frozen enroll time and timestamp);
consequently a following line whose extracted group key equals the
delivered record's key takes the append path on the empty slot in group
mode: no init happens, the record's enroll time and timestamp remain those
set by the previously delivered record, and its line count restarts at 1
without any delivery. -/
theorem group_reset_keeps_key_and_times (c : ModeConfig) (next : Handler)
    (now : Instant) (d : MultilineEntry) (labels : LabelSet) (t : Instant)
    (entry : String)
    (hkey : (disjointRe c.expressionRegex entry).1 = d.key) :
    d.reset.key = d.key
    ∧ d.reset.labels = [] ∧ d.reset.entry = "" ∧ d.reset.lines = 0
    ∧ d.reset.enrollTime = d.enrollTime
    ∧ d.reset.timestamp = d.timestamp
    ∧ (handleGroupMode c next now d.reset labels t entry).1.enrollTime
        = d.enrollTime
    ∧ (handleGroupMode c next now d.reset labels t entry).1.timestamp
        = d.timestamp
    ∧ (handleGroupMode c next now d.reset labels t entry).1.lines = 1
    ∧ (handleGroupMode c next now d.reset labels t entry).1.key = d.key
    ∧ (handleGroupMode c next now d.reset labels t entry).2.1 = [] := by
  refine ⟨rfl, rfl, rfl, rfl, rfl, rfl, ?_, ?_, ?_, ?_, ?_⟩ <;>
    simp [handleGroupMode, hkey, MultilineEntry.append, MultilineEntry.reset]

/-- Closed instantiation of the reset/reuse theorem at a concrete record
and line. -/
theorem group_reset_keeps_key_and_times_witness :
    d0.reset.key = d0.key
    ∧ d0.reset.labels = [] ∧ d0.reset.entry = "" ∧ d0.reset.lines = 0
    ∧ d0.reset.enrollTime = d0.enrollTime
    ∧ d0.reset.timestamp = d0.timestamp
    ∧ (handleGroupMode mc0 next0 99 d0.reset [("c", "3")] 42
        "hello").1.enrollTime = d0.enrollTime
    ∧ (handleGroupMode mc0 next0 99 d0.reset [("c", "3")] 42
        "hello").1.timestamp = d0.timestamp
    ∧ (handleGroupMode mc0 next0 99 d0.reset [("c", "3")] 42
        "hello").1.lines = 1
    ∧ (handleGroupMode mc0 next0 99 d0.reset [("c", "3")] 42
        "hello").1.key = d0.key
    ∧ (handleGroupMode mc0 next0 99 d0.reset [("c", "3")] 42
        "hello").2.1 = [] :=
  group_reset_keeps_key_and_times mc0 next0 99 d0 [("c", "3")] 42 "hello" rfl

/-- C3 counterexample: with idle duration 4 the sweep ticks at 2, 4, 6, …
(interval `maxWait / 2`); a nonempty record enrolled at time 1 is delivered
by no sweep pass before tick 6, and at tick 6 it has already been held for
5 > 4: the half-interval ticking does not bound the hold time by the idle
duration itself. -/
theorem sweep_can_hold_longer_than_idle :
    sweepTickInterval 4 = 2
    ∧ (flushSingle next0 (1 * sweepTickInterval 4) 4 false rec3).2.1 = []
    ∧ (flushSingle next0 (2 * sweepTickInterval 4) 4 false rec3).2.1 = []
    ∧ (flushSingle next0 (3 * sweepTickInterval 4) 4 false rec3).2.1
        = [toDelivery rec3]
    ∧ firstDeliveryTick 4 1 = 3 * sweepTickInterval 4
    ∧ firstDeliveryTick 4 1 - rec3.enrollTime > 4 := by
  refine ⟨rfl, ?_, ?_, ?_, rfl, ?_⟩ <;> decide

/-- C3 (amended): with a positive tick interval (half the idle duration,
the interval `startFlusher` configures), an unforced sweep pass delivers a
nonempty record exactly when `now - enrollTime > maxWait`; the earliest
delivering tick is `firstDeliveryTick`, no earlier tick delivers, and that
tick is at most the idle duration plus one tick interval (that is, at most
1.5 times the idle duration) after enrollment — the idle duration alone is
not an upper bound on the hold time, but idle duration plus half the idle
duration is. -/
theorem sweep_delivery_bound (maxWait e : Int) (r : MultilineEntry)
    (next : Handler) (hh : 0 < sweepTickInterval maxWait) (he : 0 ≤ e)
    (hr : r.enrollTime = e) (hl : 0 < r.lines) :
    (∀ now : Instant,
      (flushSingle next now maxWait false r).2.1 ≠ [] ↔ now - e > maxWait)
    ∧ (∃ k : Int, 1 ≤ k
        ∧ firstDeliveryTick maxWait e = k * sweepTickInterval maxWait)
    ∧ (flushSingle next (firstDeliveryTick maxWait e) maxWait false
        r).2.1 = [toDelivery r]
    ∧ (∀ k : Int, 1 ≤ k →
        k * sweepTickInterval maxWait < firstDeliveryTick maxWait e →
        (flushSingle next (k * sweepTickInterval maxWait) maxWait false
          r).2.1 = [])
    ∧ firstDeliveryTick maxWait e - e
        ≤ maxWait + sweepTickInterval maxWait := by
  have hh2 : 0 < maxWait / 2 := hh
  have hMW : 0 < maxWait := by omega
  have hgate : ∀ now : Instant,
      (flushSingle next now maxWait false r).2.1 ≠ [] ↔ now - e > maxWait := by
    intro now
    constructor
    · intro hne
      by_contra hgt
      have hcond : ¬ (r.lines > 0
          ∧ (false = true ∨ now - r.enrollTime > maxWait)) := by
        rintro ⟨_, hor | hage⟩
        · exact Bool.false_ne_true hor
        · rw [hr] at hage
          exact hgt hage
      rw [flushSingle, if_neg hcond] at hne
      exact hne rfl
    · intro hage
      have hcond : r.lines > 0
          ∧ (false = true ∨ now - r.enrollTime > maxWait) :=
        ⟨hl, Or.inr (by rw [hr]; exact hage)⟩
      rw [flushSingle, if_pos hcond]
      simp
  have hT : firstDeliveryTick maxWait e
      = ((e + maxWait) / sweepTickInterval maxWait + 1)
        * sweepTickInterval maxWait := rfl
  have hTgt : e + maxWait < firstDeliveryTick maxWait e := by
    rw [hT]
    exact Int.lt_ediv_add_one_mul_self (e + maxWait) hh
  refine ⟨hgate, ⟨(e + maxWait) / sweepTickInterval maxWait + 1, ?_, hT⟩,
    ?_, ?_, ?_⟩
  · have hq : 0 ≤ (e + maxWait) / sweepTickInterval maxWait :=
      Int.ediv_nonneg (by linarith) (le_of_lt hh)
    linarith
  · have hcond : r.lines > 0 ∧ (false = true
        ∨ firstDeliveryTick maxWait e - r.enrollTime > maxWait) :=
      ⟨hl, Or.inr (by rw [hr]; linarith)⟩
    rw [flushSingle, if_pos hcond]
  · intro k hk1 hklt
    have hkle : k ≤ (e + maxWait) / sweepTickInterval maxWait := by
      rw [hT] at hklt
      have := lt_of_mul_lt_mul_right hklt (le_of_lt hh)
      linarith
    have hbound : k * sweepTickInterval maxWait ≤ e + maxWait :=
      le_trans (mul_le_mul_of_nonneg_right hkle (le_of_lt hh))
        (Int.ediv_mul_le (e + maxWait) (ne_of_gt hh))
    have hcond : ¬ (r.lines > 0
        ∧ (false = true
          ∨ k * sweepTickInterval maxWait - r.enrollTime > maxWait)) := by
      rintro ⟨_, hor | hage⟩
      · exact Bool.false_ne_true hor
      · rw [hr] at hage
        linarith
    rw [flushSingle, if_neg hcond]
  · have hfloor : (e + maxWait) / sweepTickInterval maxWait
        * sweepTickInterval maxWait ≤ e + maxWait :=
      Int.ediv_mul_le (e + maxWait) (ne_of_gt hh)
    rw [hT, add_one_mul]
    linarith

/-- Closed instantiation of the amended sweep-timing theorem at idle
duration 4 and the record enrolled at time 1: the first delivering tick is
6, ticks 2 and 4 deliver nothing, and 6 is within 1.5 times the idle
duration of enrollment. -/
theorem sweep_delivery_bound_witness :
    ((flushSingle next0 (7 : Int) 4 false rec3).2.1 ≠ [] ↔ (7 : Int) - 1 > 4)
    ∧ (flushSingle next0 (firstDeliveryTick 4 1) 4 false rec3).2.1
        = [toDelivery rec3]
    ∧ firstDeliveryTick 4 1 - 1 ≤ 4 + sweepTickInterval 4 :=
  ⟨(sweep_delivery_bound 4 1 rec3 next0 (by decide) (by decide) rfl
      (by decide)).1 7,
    (sweep_delivery_bound 4 1 rec3 next0 (by decide) (by decide) rfl
      (by decide)).2.2.1,
    (sweep_delivery_bound 4 1 rec3 next0 (by decide) (by decide) rfl
      (by decide)).2.2.2.2⟩
